import Mathlib

/-!
Shallow embedding of `src/client.py` (phsrod/padroesResiliencia): a resilience
layer composed of a circuit breaker, a token-bucket rate limiter and a
retry/backoff orchestrator.  Timestamps (`time.time()` / `time.monotonic()`)
and durations are modelled as rationals; the Python `int` counters as `Nat`.
Each method of the Python classes becomes a pure function from the pre-state
(plus the clock reading the method takes) to the post-state and return value.
-/

namespace PadroesResiliencia

/-- The three circuit states, the string values `"CLOSED" | "OPEN" | "HALF_OPEN"`
used by `client.py`. -/
inductive CBState
  | CLOSED
  | OPEN
  | HALF_OPEN
deriving DecidableEq, Repr

/-- State of `CircuitBreaker` (`client.py`, class `CircuitBreaker`):
configuration `fail_max`, `reset_timeout` and mutable fields `fail_count`,
`state`, `opened_at`. -/
structure CircuitBreaker where
  fail_max : Nat
  reset_timeout : ℚ
  fail_count : Nat
  state : CBState
  opened_at : Option ℚ
deriving DecidableEq, Repr

namespace CircuitBreaker

/-- Constructor `CircuitBreaker.__init__`: `fail_count = 0`, `state = "CLOSED"`,
`opened_at = None`. -/
def init (fail_max : Nat) (reset_timeout : ℚ) : CircuitBreaker :=
  { fail_max := fail_max, reset_timeout := reset_timeout,
    fail_count := 0, state := .CLOSED, opened_at := none }

/-- Method `CircuitBreaker.allow_request`, `now` being the `time.time()` it reads.
`(self.opened_at or 0)` is `opened_at.getD 0`.  Returns the bool together
with the post-state. -/
def allow_request (cb : CircuitBreaker) (now : ℚ) : Bool × CircuitBreaker :=
  if cb.state = .OPEN then
    if cb.reset_timeout ≤ now - cb.opened_at.getD 0 then
      (true, { cb with state := .HALF_OPEN })
    else
      (false, cb)
  else
    (true, cb)

/-- Method `CircuitBreaker.record_success`: zero the failure counter and close the
circuit.  (The source does not touch `opened_at` here.) -/
def record_success (cb : CircuitBreaker) : CircuitBreaker :=
  { cb with fail_count := 0, state := .CLOSED }

/-- Method `CircuitBreaker.record_failure`, `now` being the `time.time()` it would
read: increment `fail_count`; once it reaches `fail_max`, open the circuit
and stamp `opened_at`. -/
def record_failure (cb : CircuitBreaker) (now : ℚ) : CircuitBreaker :=
  if cb.fail_max ≤ cb.fail_count + 1 then
    { cb with fail_count := cb.fail_count + 1, state := .OPEN, opened_at := some now }
  else
    { cb with fail_count := cb.fail_count + 1 }

/-- Method `CircuitBreaker.force_open`: unconditionally open and stamp `opened_at`. -/
def force_open (cb : CircuitBreaker) (now : ℚ) : CircuitBreaker :=
  { cb with state := .OPEN, opened_at := some now }

/-- Method `CircuitBreaker.reset`: back to the initial mutable fields. -/
def reset (cb : CircuitBreaker) : CircuitBreaker :=
  { cb with state := .CLOSED, fail_count := 0, opened_at := none }

end CircuitBreaker

/-- One invocation of one of the five breaker operations, carrying the clock
value the operation reads where it reads one. -/
inductive CBOp
  | allowRequest (now : ℚ)
  | recordSuccess
  | recordFailure (now : ℚ)
  | forceOpen (now : ℚ)
  | reset
deriving DecidableEq, Repr

/-- Apply one operation to a breaker state (the returned bool of
`allow_request` is discarded; only the state evolution matters here). -/
def CBOp.apply (cb : CircuitBreaker) : CBOp → CircuitBreaker
  | .allowRequest now => (cb.allow_request now).2
  | .recordSuccess => cb.record_success
  | .recordFailure now => cb.record_failure now
  | .forceOpen now => cb.force_open now
  | .reset => cb.reset

/-- Run a sequence of breaker operations from a state. -/
def runOps (cb : CircuitBreaker) (ops : List CBOp) : CircuitBreaker :=
  ops.foldl CBOp.apply cb

/-- A sequence of `record_failure` calls, each with its own clock reading. -/
def failSeq (cb : CircuitBreaker) (ts : List ℚ) : CircuitBreaker :=
  ts.foldl CircuitBreaker.record_failure cb

theorem failSeq_nil (cb : CircuitBreaker) : failSeq cb [] = cb := rfl

theorem failSeq_cons (cb : CircuitBreaker) (t : ℚ) (ts : List ℚ) :
    failSeq cb (t :: ts) = failSeq (cb.record_failure t) ts := rfl

theorem record_failure_fail_count (cb : CircuitBreaker) (t : ℚ) :
    (cb.record_failure t).fail_count = cb.fail_count + 1 := by
  unfold CircuitBreaker.record_failure
  split <;> rfl

theorem record_failure_fail_max (cb : CircuitBreaker) (t : ℚ) :
    (cb.record_failure t).fail_max = cb.fail_max := by
  unfold CircuitBreaker.record_failure
  split <;> rfl

theorem failSeq_fail_count (ts : List ℚ) (cb : CircuitBreaker) :
    (failSeq cb ts).fail_count = cb.fail_count + ts.length := by
  induction ts generalizing cb with
  | nil => simp [failSeq_nil]
  | cons t ts ih =>
      rw [failSeq_cons, ih, record_failure_fail_count]
      simp
      omega

theorem failSeq_fail_max (ts : List ℚ) (cb : CircuitBreaker) :
    (failSeq cb ts).fail_max = cb.fail_max := by
  induction ts generalizing cb with
  | nil => rfl
  | cons t ts ih => rw [failSeq_cons, ih, record_failure_fail_max]

/-- If the failure counter never reaches the threshold during the sequence,
`state` and `opened_at` are untouched. -/
theorem failSeq_state_of_lt (ts : List ℚ) (cb : CircuitBreaker)
    (h : cb.fail_count + ts.length < cb.fail_max) :
    (failSeq cb ts).state = cb.state ∧ (failSeq cb ts).opened_at = cb.opened_at := by
  induction ts generalizing cb with
  | nil => exact ⟨rfl, rfl⟩
  | cons t ts ih =>
      rw [failSeq_cons]
      have hnt : ¬ cb.fail_max ≤ cb.fail_count + 1 := by
        simp only [List.length_cons] at h
        omega
      have hrec : cb.record_failure t = { cb with fail_count := cb.fail_count + 1 } := by
        unfold CircuitBreaker.record_failure
        simp [hnt]
      rw [hrec]
      exact ih _ (by simp only [List.length_cons] at h ⊢; omega)

/-- If by the end of a nonempty sequence the counter has reached the threshold,
the circuit is `OPEN` and `opened_at` carries the last call's clock reading. -/
theorem failSeq_open_of_ge (ts : List ℚ) (cb : CircuitBreaker)
    (hne : ts ≠ []) (h : cb.fail_max ≤ cb.fail_count + ts.length) :
    (failSeq cb ts).state = .OPEN ∧ (failSeq cb ts).opened_at = ts.getLast? := by
  induction ts generalizing cb with
  | nil => exact absurd rfl hne
  | cons t ts ih =>
      rw [failSeq_cons]
      cases ts with
      | nil =>
          have ht : cb.fail_max ≤ cb.fail_count + 1 := by
            simpa using h
          have hrec : cb.record_failure t = { cb with fail_count := cb.fail_count + 1, state := .OPEN, opened_at := some t } := by
            unfold CircuitBreaker.record_failure
            simp [ht]
          rw [hrec, failSeq_nil]
          exact ⟨rfl, rfl⟩
      | cons t2 ts2 =>
          have := ih (cb.record_failure t) (by simp)
            (by rw [record_failure_fail_max, record_failure_fail_count]
                simp only [List.length_cons] at h ⊢
                omega)
          simpa using this

/-- C2: from the initial `CLOSED` state, every prefix of a `recordFailure`
sequence has `failCount` equal to its length; the circuit is `OPEN` exactly
when the prefix is at least `failThreshold` long; and at the very call where
the counter first reaches the threshold, `openedAt` carries that call's
timestamp. -/
theorem C2_record_failure_opens_at_threshold
    (fm : Nat) (rt : ℚ) (ts : List ℚ) (k : Nat)
    (hfm : 1 ≤ fm) (hk : k ≤ ts.length) :
    (failSeq (CircuitBreaker.init fm rt) (ts.take k)).fail_count = k
      ∧ ((failSeq (CircuitBreaker.init fm rt) (ts.take k)).state = .OPEN ↔ fm ≤ k)
      ∧ (k = fm →
          (failSeq (CircuitBreaker.init fm rt) (ts.take k)).opened_at
            = (ts.take k).getLast?) := by
  have hlen : (ts.take k).length = k := by
    simp [List.length_take]
    omega
  have hcount : (failSeq (CircuitBreaker.init fm rt) (ts.take k)).fail_count = k := by
    rw [failSeq_fail_count, hlen]
    simp [CircuitBreaker.init]
  refine ⟨hcount, ?_, ?_⟩
  · constructor
    · intro hopen
      by_contra hlt
      have hlt' : k < fm := by omega
      have := failSeq_state_of_lt (ts.take k) (CircuitBreaker.init fm rt)
        (by simp [CircuitBreaker.init, hlen]; omega)
      rw [this.1] at hopen
      simp [CircuitBreaker.init] at hopen
    · intro hge
      have hne : ts.take k ≠ [] := by
        intro hcontra
        rw [hcontra] at hlen
        simp at hlen
        omega
      exact (failSeq_open_of_ge (ts.take k) (CircuitBreaker.init fm rt) hne
        (by simp [CircuitBreaker.init, hlen]; omega)).1
  · intro hkfm
    have hne : ts.take k ≠ [] := by
      intro hcontra
      rw [hcontra] at hlen
      simp at hlen
      omega
    exact (failSeq_open_of_ge (ts.take k) (CircuitBreaker.init fm rt) hne
      (by simp [CircuitBreaker.init, hlen]; omega)).2

/-- Witness for C2 at `failThreshold = 2`, timestamps `[4, 7, 9]`, prefix
length `k = 2`: two failures, counter `2`, circuit open, stamped at `7`. -/
theorem C2_record_failure_opens_at_threshold_witness :
    (1 ≤ 2 ∧ 2 ≤ ([(4 : ℚ), 7, 9]).length)
      ∧ (failSeq (CircuitBreaker.init 2 10) (([(4 : ℚ), 7, 9]).take 2)).fail_count = 2
      ∧ ((failSeq (CircuitBreaker.init 2 10) (([(4 : ℚ), 7, 9]).take 2)).state = .OPEN ↔ 2 ≤ 2)
      ∧ (2 = 2 →
          (failSeq (CircuitBreaker.init 2 10) (([(4 : ℚ), 7, 9]).take 2)).opened_at
            = (([(4 : ℚ), 7, 9]).take 2).getLast?) :=
  ⟨⟨by norm_num, by norm_num⟩,
    C2_record_failure_opens_at_threshold 2 10 [(4 : ℚ), 7, 9] 2 (by norm_num) (by norm_num)⟩

/-- C1: `allow_request` follows the 3-state machine: in `OPEN` with the
elapsed time since `openedAt` at least `resetTimeout` it moves to `HALF_OPEN`
and returns true; in `OPEN` before the timeout it returns false and leaves
the state unchanged; in `CLOSED` or `HALF_OPEN` it returns true and changes
nothing. -/
theorem C1_allow_request_state_machine (cb : CircuitBreaker) (now t : ℚ) :
    (cb.state = .OPEN → cb.opened_at = some t → cb.reset_timeout ≤ now - t →
        cb.allow_request now = (true, { cb with state := .HALF_OPEN }))
      ∧ (cb.state = .OPEN → cb.opened_at = some t → now - t < cb.reset_timeout →
          cb.allow_request now = (false, cb))
      ∧ ((cb.state = .CLOSED ∨ cb.state = .HALF_OPEN) →
          cb.allow_request now = (true, cb)) := by
  refine ⟨?_, ?_, ?_⟩
  · intro hs ho helapsed
    unfold CircuitBreaker.allow_request
    simp [hs, ho, helapsed]
  · intro hs ho helapsed
    unfold CircuitBreaker.allow_request
    simp [hs, ho, not_le.mpr helapsed]
  · rintro (hs | hs) <;> unfold CircuitBreaker.allow_request <;> simp [hs]

/-- Witness for C1: an `OPEN` breaker (threshold 5, reset timeout 10, opened
at time 2) consulted at time 12 trips to `HALF_OPEN`, consulted at time 5
stays `OPEN` and refuses; a freshly initialized breaker always admits. -/
theorem C1_allow_request_state_machine_witness :
    CircuitBreaker.allow_request { fail_max := 5, reset_timeout := 10, fail_count := 5, state := .OPEN, opened_at := some 2 } 12 = (true, { fail_max := 5, reset_timeout := 10, fail_count := 5, state := .HALF_OPEN, opened_at := some 2 })
    ∧ CircuitBreaker.allow_request { fail_max := 5, reset_timeout := 10, fail_count := 5, state := .OPEN, opened_at := some 2 } 5 = (false, { fail_max := 5, reset_timeout := 10, fail_count := 5, state := .OPEN, opened_at := some 2 })
    ∧ CircuitBreaker.allow_request (CircuitBreaker.init 5 10) 0 = (true, CircuitBreaker.init 5 10) :=
  ⟨(C1_allow_request_state_machine _ 12 2).1 rfl rfl (by norm_num),
    (C1_allow_request_state_machine _ 5 2).2.1 rfl rfl (by norm_num),
    (C1_allow_request_state_machine (CircuitBreaker.init 5 10) 0 0).2.2 (Or.inl rfl)⟩

/-- C4 counterexample: `record_success` does NOT clear `openedAt`.  Open the
fresh breaker by force at time 3, then record a success: `failCount` is 0 and
the state is `CLOSED` as claimed, but `openedAt` is still `some 3`, not
`none`. -/
theorem C4_counterexample :
    ((CircuitBreaker.init 5 10).force_open 3).record_success.fail_count = 0
      ∧ ((CircuitBreaker.init 5 10).force_open 3).record_success.state = .CLOSED
      ∧ ((CircuitBreaker.init 5 10).force_open 3).record_success.opened_at = some 3 :=
  ⟨rfl, rfl, rfl⟩

/-- C4 amended: after `record_success` the breaker has `failCount = 0` and
`state = CLOSED`, and `openedAt` is left unchanged (the source never clears
it on success; only `reset` does). -/
theorem C4_record_success_amended (cb : CircuitBreaker) :
    cb.record_success.fail_count = 0
      ∧ cb.record_success.state = .CLOSED
      ∧ cb.record_success.opened_at = cb.opened_at :=
  ⟨rfl, rfl, rfl⟩

/-- C3 counterexample: a reachable `HALF_OPEN` state in which one
`record_failure` does NOT re-open the circuit.  Force the fresh breaker
open at time 0 (leaving `failCount = 0`), let `allow_request` at time 10
move it to `HALF_OPEN`, then record one failure at time 11: the counter
becomes 1 < 5, so the state stays `HALF_OPEN` instead of `OPEN`. -/
theorem C3_counterexample :
    (runOps (CircuitBreaker.init 5 10) [.forceOpen 0, .allowRequest 10]).state = CBState.HALF_OPEN
      ∧ ((runOps (CircuitBreaker.init 5 10) [.forceOpen 0, .allowRequest 10]).record_failure 11).state ≠ CBState.OPEN := by
  constructor
  · norm_num [runOps, CBOp.apply, CircuitBreaker.init, CircuitBreaker.force_open,
      CircuitBreaker.allow_request]
  · norm_num [runOps, CBOp.apply, CircuitBreaker.init, CircuitBreaker.force_open,
      CircuitBreaker.allow_request, CircuitBreaker.record_failure]
    decide

/-- C3 amended: in any `HALF_OPEN` state, one `record_failure` re-opens the
circuit iff `failCount + 1` reaches `failThreshold` (this holds for
`HALF_OPEN` states entered through the failure-threshold path, where
`failCount` was never cleared, but can fail after `force_open`); and one
`record_success` always sets `state = CLOSED` and `failCount = 0`. -/
theorem C3_half_open_trial_amended (cb : CircuitBreaker) (now : ℚ)
    (h : cb.state = .HALF_OPEN) :
    ((cb.record_failure now).state = .OPEN ↔ cb.fail_max ≤ cb.fail_count + 1)
      ∧ cb.record_success.state = .CLOSED
      ∧ cb.record_success.fail_count = 0 := by
  refine ⟨?_, rfl, rfl⟩
  unfold CircuitBreaker.record_failure
  split
  · simp_all
  · simp_all

/-- Witness for C3 amended: a `HALF_OPEN` breaker with `failCount = 4` and
threshold 5 (as after opening via failures and a timed-out trial window):
the trial failure re-opens, the trial success closes and zeroes the counter. -/
theorem C3_half_open_trial_amended_witness :
    (CircuitBreaker.record_failure { fail_max := 5, reset_timeout := 10, fail_count := 4, state := .HALF_OPEN, opened_at := some 0 } 11).state = CBState.OPEN
      ∧ (CircuitBreaker.record_success { fail_max := 5, reset_timeout := 10, fail_count := 4, state := .HALF_OPEN, opened_at := some 0 }).state = CBState.CLOSED
      ∧ (CircuitBreaker.record_success { fail_max := 5, reset_timeout := 10, fail_count := 4, state := .HALF_OPEN, opened_at := some 0 }).fail_count = 0 :=
  ⟨((C3_half_open_trial_amended { fail_max := 5, reset_timeout := 10, fail_count := 4, state := .HALF_OPEN, opened_at := some 0 } 11 rfl).1).mpr (by norm_num),
    (C3_half_open_trial_amended { fail_max := 5, reset_timeout := 10, fail_count := 4, state := .HALF_OPEN, opened_at := some 0 } 11 rfl).2.1,
    (C3_half_open_trial_amended { fail_max := 5, reset_timeout := 10, fail_count := 4, state := .HALF_OPEN, opened_at := some 0 } 11 rfl).2.2⟩

/-- Fold step for C5: evolve the breaker by one operation while tracking the
ghost flag \"the circuit has been opened at least once (by `record_failure`
reaching the threshold, or by `force_open`) and `reset` has not been called
since\". -/
def openedFlagStep (p : CircuitBreaker × Bool) (op : CBOp) : CircuitBreaker × Bool :=
  (CBOp.apply p.1 op,
    match op with
    | .forceOpen _ => true
    | .recordFailure _ => if p.1.fail_max ≤ p.1.fail_count + 1 then true else p.2
    | .reset => false
    | _ => p.2)

theorem allow_request_opened_at (cb : CircuitBreaker) (now : ℚ) :
    ((cb.allow_request now).2).opened_at = cb.opened_at := by
  unfold CircuitBreaker.allow_request
  split
  · split <;> rfl
  · rfl

theorem openedFlagStep_invariant (p : CircuitBreaker × Bool) (op : CBOp)
    (h : p.1.opened_at.isSome = p.2) :
    (openedFlagStep p op).1.opened_at.isSome = (openedFlagStep p op).2 := by
  obtain ⟨cb, flag⟩ := p
  cases op with
  | allowRequest now =>
      simpa [openedFlagStep, CBOp.apply, allow_request_opened_at] using h
  | recordSuccess =>
      simpa [openedFlagStep, CBOp.apply, CircuitBreaker.record_success] using h
  | recordFailure now =>
      simp only [openedFlagStep, CBOp.apply]
      unfold CircuitBreaker.record_failure
      split
      · simp_all
      · simp_all
  | forceOpen now =>
      simp [openedFlagStep, CBOp.apply, CircuitBreaker.force_open]
  | reset =>
      simp [openedFlagStep, CBOp.apply, CircuitBreaker.reset]

theorem openedFlag_fold_invariant (ops : List CBOp) (p : CircuitBreaker × Bool)
    (h : p.1.opened_at.isSome = p.2) :
    (ops.foldl openedFlagStep p).1.opened_at.isSome = (ops.foldl openedFlagStep p).2 := by
  induction ops generalizing p with
  | nil => simpa using h
  | cons op ops ih =>
      simpa using ih (openedFlagStep p op) (openedFlagStep_invariant p op h)

/-- C5: starting from the initial state (where the flag is false and
`openedAt = none`), after any sequence of the five breaker operations,
`openedAt` is non-null exactly when the circuit has been opened at least
once (threshold `record_failure` or `force_open`) with no `reset` since. -/
theorem C5_opened_at_iff_opened_since_reset (fm : Nat) (rt : ℚ) (ops : List CBOp) :
    (ops.foldl openedFlagStep (CircuitBreaker.init fm rt, false)).1.opened_at.isSome
      = (ops.foldl openedFlagStep (CircuitBreaker.init fm rt, false)).2 :=
  openedFlag_fold_invariant ops (CircuitBreaker.init fm rt, false) rfl

/-- Single-step preservation of \"`OPEN` implies `openedAt` is set\". -/
theorem open_imp_opened_at_step (cb : CircuitBreaker) (op : CBOp)
    (h : cb.state = .OPEN → cb.opened_at.isSome) :
    (CBOp.apply cb op).state = .OPEN → (CBOp.apply cb op).opened_at.isSome := by
  cases op with
  | allowRequest now =>
      show ((cb.allow_request now).2).state = .OPEN → ((cb.allow_request now).2).opened_at.isSome
      rw [allow_request_opened_at]
      unfold CircuitBreaker.allow_request
      split
      · split
        · intro hco
          simp at hco
        · intro _
          exact h (by assumption)
      · intro hx
        exact h hx
  | recordSuccess =>
      intro hopen
      simp [CBOp.apply, CircuitBreaker.record_success] at hopen
  | recordFailure now =>
      show ((cb.record_failure now)).state = .OPEN → ((cb.record_failure now)).opened_at.isSome
      unfold CircuitBreaker.record_failure
      split
      · intro _
        simp
      · intro hx
        exact h hx
  | forceOpen now =>
      intro _
      simp [CBOp.apply, CircuitBreaker.force_open]
  | reset =>
      intro hopen
      simp [CBOp.apply, CircuitBreaker.reset] at hopen

/-- C10: in every state reachable from the initial breaker by any sequence
of the five operations, `state = OPEN` implies `openedAt` is non-null, so
`allow_request`'s elapsed-time computation never reads a null `openedAt`
while `OPEN`. -/
theorem C10_open_implies_opened_at (fm : Nat) (rt : ℚ) (ops : List CBOp)
    (h : (runOps (CircuitBreaker.init fm rt) ops).state = .OPEN) :
    (runOps (CircuitBreaker.init fm rt) ops).opened_at.isSome = true := by
  suffices hgen : ∀ cb, (cb.state = .OPEN → cb.opened_at.isSome) →
      ((runOps cb ops).state = .OPEN → (runOps cb ops).opened_at.isSome) by
    exact hgen (CircuitBreaker.init fm rt) (by intro hc; simp [CircuitBreaker.init] at hc) h
  clear h
  induction ops with
  | nil => intro cb hcb; exact hcb
  | cons op ops ih =>
      intro cb hcb
      exact ih (CBOp.apply cb op) (open_imp_opened_at_step cb op hcb)

/-- Witness for C10: after `[forceOpen 2]` the breaker is `OPEN` and indeed
`openedAt` is set. -/
theorem C10_open_implies_opened_at_witness :
    (runOps (CircuitBreaker.init 1 1) [.forceOpen 2]).opened_at.isSome = true :=
  C10_open_implies_opened_at 1 1 [.forceOpen 2] rfl

/-- An `httpx` response, as far as `client.py` inspects one. -/
structure Resp where
  status_code : Nat
  text : String
deriving DecidableEq, Repr

/-- What one transport invocation (`self._client.request(...)`) does:
return a response, raise `asyncio.TimeoutError`, or raise
`httpx.RequestError`. -/
inductive AttemptOutcome
  | resp (r : Resp)
  | timeout
  | requestError
deriving DecidableEq, Repr

/-- The errors `_request` can fail with: `CircuitOpenError`, or the last
attempt's `asyncio.TimeoutError` / `httpx.RequestError` /
`httpx.HTTPStatusError` (the latter synthesized for `status_code >= 500`). -/
inductive ReqError
  | circuitOpen
  | timeout
  | requestError
  | httpStatusError (r : Resp)
deriving DecidableEq, Repr

/-- The try-body of one loop iteration: a returned response with
`status_code < 500` is a success; `status_code >= 500` raises
`HTTPStatusError`; the two exception kinds map to their errors. -/
def attemptResult : AttemptOutcome → Except ReqError Resp
  | .resp r => if r.status_code < 500 then .ok r else .error (.httpStatusError r)
  | .timeout => .error .timeout
  | .requestError => .error .requestError

/-- Observables of one `_request` execution: the value returned or the error
raised, the final breaker state, how many times the transport was invoked,
and the backoff sleeps performed (in order). -/
structure LoopResult where
  result : Except ReqError Resp
  circuit : CircuitBreaker
  invocations : Nat
  sleeps : List ℚ
deriving Repr

/-- The retry loop of `ResilientClient._request`.  `transport i` is the
outcome of the `i`-th transport invocation and `times i` the `time.time()`
a failure of attempt `i` stamps into the breaker; `attempt` is the current
attempt number (the loop is entered with `attempt = 1`) and the last
argument is `retry_attempts + 1 - attempt`: the number of retries still
allowed, so a failure with `0` left re-raises (`attempt > retry_attempts`)
and otherwise the loop sleeps `backoff_factor * 2 ** (attempt - 1)` and
retries. -/
def requestLoop (bf : ℚ) (transport : Nat → AttemptOutcome) (times : Nat → ℚ)
    (cb : CircuitBreaker) (attempt : Nat) : Nat → LoopResult
  | 0 =>
    match attemptResult (transport attempt) with
    | .ok r => ⟨.ok r, cb.record_success, 1, []⟩
    | .error e => ⟨.error e, cb.record_failure (times attempt), 1, []⟩
  | remaining + 1 =>
    match attemptResult (transport attempt) with
    | .ok r => ⟨.ok r, cb.record_success, 1, []⟩
    | .error _ =>
        let rest := requestLoop bf transport times (cb.record_failure (times attempt))
          (attempt + 1) remaining
        ⟨rest.result, rest.circuit, rest.invocations + 1,
          bf * 2 ^ (attempt - 1) :: rest.sleeps⟩

/-- Method `ResilientClient._request`: after the semaphore and the rate limiter
(which never fail and do not affect these observables), consult the breaker
at clock `now`; a refusal raises `CircuitOpenError` before any transport
invocation, otherwise the retry loop runs with `attempt = 1` and
`retry_attempts` retries left. -/
def ResilientClient._request (retry_attempts : Nat) (bf : ℚ)
    (transport : Nat → AttemptOutcome) (times : Nat → ℚ)
    (cb : CircuitBreaker) (now : ℚ) : LoopResult :=
  if (cb.allow_request now).1 then
    requestLoop bf transport times (cb.allow_request now).2 1 retry_attempts
  else
    ⟨.error .circuitOpen, (cb.allow_request now).2, 0, []⟩

theorem requestLoop_invocations_le (bf : ℚ) (transport : Nat → AttemptOutcome)
    (times : Nat → ℚ) :
    ∀ (remaining attempt : Nat) (cb : CircuitBreaker),
      (requestLoop bf transport times cb attempt remaining).invocations ≤ remaining + 1 := by
  intro remaining
  induction remaining with
  | zero =>
      intro attempt cb
      unfold requestLoop
      cases attemptResult (transport attempt) <;> simp
  | succ remaining ih =>
      intro attempt cb
      unfold requestLoop
      cases attemptResult (transport attempt) with
      | ok r => simp
      | error e =>
          simp only
          have := ih (attempt + 1) (cb.record_failure (times attempt))
          omega

/-- If attempts `attempt, ..., attempt + k - 1` fail and attempt
`attempt + k` succeeds with `r` (with at least `k` retries left), the loop
returns `r` after `k + 1` invocations and sleeps
`bf * 2 ^ (attempt - 1 + j)` for `j = 0, ..., k - 1`. -/
theorem requestLoop_scenario (bf : ℚ) (transport : Nat → AttemptOutcome)
    (times : Nat → ℚ) (r : Resp) (k : Nat) :
    ∀ (attempt remaining : Nat) (cb : CircuitBreaker),
      1 ≤ attempt → k ≤ remaining →
      (∀ i, attempt ≤ i → i < attempt + k → ∃ e, attemptResult (transport i) = .error e) →
      attemptResult (transport (attempt + k)) = .ok r →
      (requestLoop bf transport times cb attempt remaining).result = .ok r
        ∧ (requestLoop bf transport times cb attempt remaining).invocations = k + 1
        ∧ (requestLoop bf transport times cb attempt remaining).sleeps
            = (List.range k).map (fun j => bf * 2 ^ (attempt - 1 + j)) := by
  induction k with
  | zero =>
      intro attempt remaining cb _ _ _ hsucc
      simp only [Nat.add_zero] at hsucc
      cases remaining <;>
        · unfold requestLoop
          rw [hsucc]
          exact ⟨rfl, rfl, rfl⟩
  | succ k ih =>
      intro attempt remaining cb hatt hk hfail hsucc
      obtain ⟨rem, rfl⟩ : ∃ rem, remaining = rem + 1 := ⟨remaining - 1, by omega⟩
      obtain ⟨e, he⟩ := hfail attempt le_rfl (by omega)
      have hrest := ih (attempt + 1) rem (cb.record_failure (times attempt))
        (by omega) (by omega)
        (fun i h1 h2 => hfail i (by omega) (by omega))
        (by rw [show attempt + 1 + k = attempt + (k + 1) by omega]; exact hsucc)
      unfold requestLoop
      rw [he]
      simp only
      refine ⟨hrest.1, by rw [hrest.2.1], ?_⟩
      rw [hrest.2.2, List.range_succ_eq_map, List.map_cons, List.map_map]
      congr 1
      apply List.map_congr_left
      intro j hj
      have hx : attempt + 1 - 1 + j = attempt - 1 + (j + 1) := by omega
      simp only [Function.comp_apply]
      rw [hx]

/-- C6: with `retryAttempts = n`, `_request` invokes the transport at most
`n + 1` times — unconditionally, for every transport (including one that
fails every attempt, exhausting the retries), breaker and clock; and when
the circuit admits the call, the transport fails on attempts `1..k`
(`k ≤ n`) and succeeds on attempt `k + 1`, `_request` returns that success
after exactly `k + 1` invocations and exactly `k` backoff sleeps of
durations `backoffFactor * 2 ^ (attempt - 1)` for `attempt = 1..k`. -/
theorem C6_retry_backoff (ra : Nat) (bf : ℚ) (transport : Nat → AttemptOutcome)
    (times : Nat → ℚ) (cb : CircuitBreaker) (now : ℚ) (r : Resp) (k : Nat) :
    (ResilientClient._request ra bf transport times cb now).invocations ≤ ra + 1
      ∧ (k ≤ ra → (cb.allow_request now).1 = true →
          (∀ i, 1 ≤ i → i ≤ k → ∃ e, attemptResult (transport i) = .error e) →
          attemptResult (transport (k + 1)) = .ok r →
          (ResilientClient._request ra bf transport times cb now).result = .ok r
            ∧ (ResilientClient._request ra bf transport times cb now).invocations = k + 1
            ∧ (ResilientClient._request ra bf transport times cb now).sleeps
                = (List.range k).map (fun j => bf * 2 ^ j)) := by
  constructor
  · unfold ResilientClient._request
    split
    · exact requestLoop_invocations_le bf transport times ra 1 _
    · simp
  · intro hk hallow hfail hsucc
    have hscen := requestLoop_scenario bf transport times r k 1 ra
      (cb.allow_request now).2 le_rfl hk
      (fun i h1 h2 => hfail i h1 (by omega))
      (by rw [show 1 + k = k + 1 by omega]; exact hsucc)
    refine ⟨?_, ?_, ?_⟩
    · unfold ResilientClient._request
      rw [if_pos hallow]
      exact hscen.1
    · unfold ResilientClient._request
      rw [if_pos hallow]
      exact hscen.2.1
    · unfold ResilientClient._request
      rw [if_pos hallow]
      rw [hscen.2.2]
      apply List.map_congr_left
      intro j _
      norm_num

/-- A demo transport for the C6 witness: attempts 1 and 2 time out,
attempt 3 returns HTTP 200. -/
def trialTransport (i : Nat) : AttemptOutcome :=
  if i ≤ 2 then .timeout else .resp ⟨200, "ok"⟩

/-- Witness for C6: `retryAttempts = 2`, `backoffFactor = 1/2`, two timeouts
then a 200: success, 3 invocations, sleeps `[1/2, 1]`; and the at-most-3
invocation cap also holds for a transport that times out on every attempt
(retries exhausted). -/
theorem C6_retry_backoff_witness :
    (ResilientClient._request 2 (1/2) trialTransport (fun _ => 0) (CircuitBreaker.init 3 10) 0).result = .ok ⟨200, "ok"⟩
      ∧ (ResilientClient._request 2 (1/2) trialTransport (fun _ => 0) (CircuitBreaker.init 3 10) 0).invocations = 3
      ∧ (ResilientClient._request 2 (1/2) trialTransport (fun _ => 0) (CircuitBreaker.init 3 10) 0).sleeps = [1/2, 1]
      ∧ (ResilientClient._request 2 (1/2) (fun _ => AttemptOutcome.timeout) (fun _ => 0) (CircuitBreaker.init 3 10) 0).invocations ≤ 2 + 1 := by
  have h := C6_retry_backoff 2 (1/2) trialTransport (fun _ => 0) (CircuitBreaker.init 3 10) 0
    ⟨200, "ok"⟩ 2
  have hs := h.2 (by norm_num)
    (by simp [CircuitBreaker.init, CircuitBreaker.allow_request])
    (by intro i h1 h2
        exact ⟨.timeout, by simp [trialTransport, attemptResult, if_pos h2]⟩)
    (by norm_num [trialTransport, attemptResult])
  refine ⟨hs.1, hs.2.1, ?_, ?_⟩
  · rw [hs.2.2]
    norm_num [List.range_succ]
  · exact (C6_retry_backoff 2 (1/2) (fun _ => AttemptOutcome.timeout) (fun _ => 0)
      (CircuitBreaker.init 3 10) 0 ⟨200, "ok"⟩ 0).1

/-- C8: whenever the breaker refuses (`allow_request` returns false),
`_request` fails with `CircuitOpenError` and the transport is never
invoked. -/
theorem C8_circuit_open_fast_fail (ra : Nat) (bf : ℚ)
    (transport : Nat → AttemptOutcome) (times : Nat → ℚ)
    (cb : CircuitBreaker) (now : ℚ)
    (h : (cb.allow_request now).1 = false) :
    (ResilientClient._request ra bf transport times cb now).result = .error .circuitOpen
      ∧ (ResilientClient._request ra bf transport times cb now).invocations = 0 := by
  unfold ResilientClient._request
  rw [if_neg (by simp [h])]
  exact ⟨rfl, rfl⟩

/-- Witness for C8: a breaker forced open at time 0 and consulted at time 3
(before the 10-unit reset timeout) blocks the call: `CircuitOpenError`, zero
transport invocations. -/
theorem C8_circuit_open_fast_fail_witness :
    (ResilientClient._request 2 (1/2) trialTransport (fun _ => 0) ((CircuitBreaker.init 5 10).force_open 0) 3).result = .error .circuitOpen
      ∧ (ResilientClient._request 2 (1/2) trialTransport (fun _ => 0) ((CircuitBreaker.init 5 10).force_open 0) 3).invocations = 0 :=
  C8_circuit_open_fast_fail 2 (1/2) trialTransport (fun _ => 0)
    ((CircuitBreaker.init 5 10).force_open 0) 3
    (by norm_num [CircuitBreaker.init, CircuitBreaker.force_open, CircuitBreaker.allow_request])

/-- The Python values appearing in the outcome dicts `client.py` builds. -/
inductive PyVal
  | bool (b : Bool)
  | int (n : Int)
  | str (s : String)
deriving DecidableEq, Repr

/-- A Python dict as `client.py` builds and returns them: key/value pairs. -/
abbrev Dict := List (String × PyVal)

/-- Python truthiness of a dict: `{}` is falsy, every non-empty dict truthy. -/
def Dict.truthy (d : Dict) : Bool := !d.isEmpty

/-- Python `a or b` where `a : Optional[dict]`: `None` and `{}` are falsy
and yield `b`. -/
def pyOrD (a : Option Dict) (b : Dict) : Dict :=
  match a with
  | none => b
  | some d => if d.truthy then d else b

/-- The default used by `ResilientClient.__init__` when no `fallback_response`
is configured: `{"ok": False, "reason": "fallback"}`. -/
def defaultFallback : Dict := [("ok", .bool false), ("reason", .str "fallback")]

/-- Method `ResilientClient.call`: the try/except around `_request`.  `default_fb`
is the field `self.fallback_response`, `res` what `_request` did, `fb` the
`fallback` parameter.  Every error (`CircuitOpenError` via its own clause,
everything else via `except Exception`) becomes `fallback or
self.fallback_response`; the function is total, so `call` never raises. -/
def ResilientClient.call (default_fb : Dict) (res : Except ReqError Resp)
    (fb : Option Dict) : Dict :=
  match res with
  | .ok r => [("ok", .bool true), ("status_code", .int r.status_code), ("text", .str r.text)]
  | .error _ => pyOrD fb default_fb

/-- C7 counterexample: a supplied falsy fallback is NOT returned.  With the
supplied fallback `{}` (given, but empty) and a `CircuitOpenError`, `call`
returns the configured default outcome, not the supplied `{}` — `fallback or
self.fallback_response` discards falsy dicts. -/
theorem C7_counterexample :
    ResilientClient.call defaultFallback (Except.error .circuitOpen) (some ([] : Dict))
        = defaultFallback
      ∧ defaultFallback ≠ ([] : Dict) :=
  ⟨rfl, by simp [defaultFallback]⟩

/-- C7 amended: `call` is a total function of the `_request` outcome (so it
never raises); on success it returns `{ok: true, status_code, text}`; on any
error it returns the supplied fallback when that fallback is given and
non-empty (truthy), and the orchestrator's configured default fallback
outcome when the fallback is omitted or empty. -/
theorem C7_call_never_raises_amended (default_fb : Dict)
    (res : Except ReqError Resp) (fb : Option Dict) :
    (∀ r, res = .ok r →
        ResilientClient.call default_fb res fb
          = [("ok", .bool true), ("status_code", .int r.status_code), ("text", .str r.text)])
      ∧ (∀ e d, res = .error e → fb = some d → d ≠ [] →
          ResilientClient.call default_fb res fb = d)
      ∧ (∀ e, res = .error e → (fb = none ∨ fb = some ([] : Dict)) →
          ResilientClient.call default_fb res fb = default_fb) := by
  refine ⟨?_, ?_, ?_⟩
  · rintro r rfl
    rfl
  · rintro e d rfl rfl hd
    simp [ResilientClient.call, pyOrD, Dict.truthy, hd]
  · rintro e rfl (rfl | rfl)
    · rfl
    · rfl

/-- Witness for C7 amended: a 200 response yields the success outcome; a
timeout with a non-empty supplied fallback returns that fallback; a timeout
with no fallback returns the configured default. -/
theorem C7_call_never_raises_amended_witness :
    ResilientClient.call defaultFallback (Except.ok ⟨200, "hi"⟩) none
        = [("ok", .bool true), ("status_code", .int 200), ("text", .str "hi")]
      ∧ ResilientClient.call defaultFallback (Except.error .timeout) (some [("ok", PyVal.bool false)])
          = [("ok", PyVal.bool false)]
      ∧ ResilientClient.call defaultFallback (Except.error .timeout) none = defaultFallback :=
  ⟨(C7_call_never_raises_amended defaultFallback (Except.ok ⟨200, "hi"⟩) none).1 ⟨200, "hi"⟩ rfl,
    (C7_call_never_raises_amended defaultFallback (Except.error .timeout) (some [("ok", PyVal.bool false)])).2.1
      .timeout [("ok", PyVal.bool false)] rfl rfl (by simp),
    (C7_call_never_raises_amended defaultFallback (Except.error .timeout) none).2.2
      .timeout rfl (Or.inl rfl)⟩

/-- State of `RateLimiter` (`client.py`): token-bucket fields. -/
structure RateLimiter where
  capacity : ℚ
  tokens : ℚ
  fill_rate : ℚ
  last : ℚ
deriving DecidableEq, Repr

namespace RateLimiter

/-- Constructor `RateLimiter.__init__` at monotonic clock `now`: full bucket,
`fill_rate = max_rate / per_seconds`. -/
def init (max_rate : Nat) (per_seconds : ℚ) (now : ℚ) : RateLimiter :=
  { capacity := max_rate, tokens := max_rate, fill_rate := max_rate / per_seconds, last := now }

/-- The lazy refill at the top of `acquire` (under the lock):
`tokens = min(capacity, tokens + elapsed * fill_rate)`, `last = now`. -/
def refill (rl : RateLimiter) (now : ℚ) : RateLimiter :=
  { rl with tokens := min rl.capacity (rl.tokens + (now - rl.last) * rl.fill_rate), last := now }

/-- First critical section of `acquire`: refill, then either consume one
token immediately (no sleep: `none`) or leave the stock and report the wait
`(1 - tokens) / fill_rate` the caller must sleep (`some wait`). -/
def acquire1 (rl : RateLimiter) (now : ℚ) : RateLimiter × Option ℚ :=
  if 1 ≤ (rl.refill now).tokens then
    ({ rl.refill now with tokens := (rl.refill now).tokens - 1 }, none)
  else
    (rl.refill now, some ((1 - (rl.refill now).tokens) / rl.fill_rate))

/-- Second critical section, re-entered after the sleep:
`tokens = max(0.0, tokens - 1.0)`.  The lock was released in between, so the
stock it sees may have been changed by concurrent acquisitions; the clamp
keeps it non-negative. -/
def acquire2 (rl : RateLimiter) : RateLimiter :=
  { rl with tokens := max 0 (rl.tokens - 1) }

/-- The token-bucket invariant `0 ≤ tokens ≤ capacity`. -/
def Inv (rl : RateLimiter) : Prop := 0 ≤ rl.tokens ∧ rl.tokens ≤ rl.capacity

end RateLimiter

/-- C9: with a non-negative fill rate and a monotonic clock, every atomic
step of `acquire` preserves `0 ≤ tokens ≤ capacity`: the refill itself, the
whole immediate path (refill + decrement), and the post-sleep clamped
decrement (from any in-bounds state it may observe after the lock was
released). -/
theorem C9_token_bounds (rl : RateLimiter) (now : ℚ)
    (hfr : 0 ≤ rl.fill_rate) (hnow : rl.last ≤ now) (hinv : rl.Inv) :
    (rl.refill now).Inv ∧ (rl.acquire1 now).1.Inv ∧ rl.acquire2.Inv := by
  obtain ⟨htok0, htokc⟩ := hinv
  have hcap : 0 ≤ rl.capacity := le_trans htok0 htokc
  have hfill : 0 ≤ rl.tokens + (now - rl.last) * rl.fill_rate := by
    have : 0 ≤ (now - rl.last) * rl.fill_rate :=
      mul_nonneg (by linarith) hfr
    linarith
  have hrefill : (rl.refill now).Inv := by
    constructor
    · exact le_min hcap hfill
    · exact min_le_left _ _
  refine ⟨hrefill, ?_, ?_⟩
  · unfold RateLimiter.acquire1
    split
    · have h1 : (1 : ℚ) ≤ (rl.refill now).tokens := by assumption
      have h2 : (rl.refill now).tokens ≤ rl.capacity := hrefill.2
      exact ⟨by show (0 : ℚ) ≤ (rl.refill now).tokens - 1; linarith,
        by show (rl.refill now).tokens - 1 ≤ rl.capacity; linarith⟩
    · exact hrefill
  · constructor
    · exact le_max_left 0 _
    · simp only [RateLimiter.acquire2]
      exact max_le hcap (by linarith)

/-- Witness for C9: a limiter with capacity 5, 3 tokens, fill rate 5,
refilled/acquired at clock 1 starting from clock 0, keeps the stock within
`[0, 5]` in all three step shapes. -/
theorem C9_token_bounds_witness :
    (({ capacity := 5, tokens := 3, fill_rate := 5, last := 0 } : RateLimiter).refill 1).Inv
      ∧ (({ capacity := 5, tokens := 3, fill_rate := 5, last := 0 } : RateLimiter).acquire1 1).1.Inv
      ∧ ({ capacity := 5, tokens := 3, fill_rate := 5, last := 0 } : RateLimiter).acquire2.Inv :=
  C9_token_bounds { capacity := 5, tokens := 3, fill_rate := 5, last := 0 } 1
    (by norm_num) (by norm_num) (by constructor <;> norm_num)

end PadroesResiliencia
